import Mathlib

/-!
Verification of the whip command broker and timed-actuation client.

Client side (ws_client.py): a per-side timer state machine.  Each `SideState`
holds a monotonic-clock deadline `expiry`, an asyncio event and a relay.
`extend` moves the deadline forward; `side_worker` keeps the relay ON while
`now < expiry` and OFF otherwise.  We model the worker coroutine as a labelled
step relation over an explicit control phase (the coroutine's suspension
points) and time-indexed reachability, with time given by rationals and
durations by integers.

Server side (main.py): a token-keyed connection registry, bearer-token
extraction, request validation, and the `/whip` dispatch path, modelled as
pure functions; the wall clock and transport outcome are explicit parameters.
-/

namespace Whip

/-- Monotonic-clock instants: `time.monotonic()` values. -/
abbrev Time := ℚ

/-- Control state of the `side_worker` coroutine, one constructor per
suspension region of the Python code:
`waitOuter` = suspended at `await state.event.wait()` (line 61);
`checkLoop` = about to run the inner-loop body (lines 64-73), which executes
without yielding; `waitInner` = suspended in
`await asyncio.wait_for(state.event.wait(), timeout)` (line 76). -/
inductive WPhase where
  | waitOuter
  | checkLoop
  | waitInner
deriving DecidableEq, Repr

/-- One `SideState` together with its relay and its worker's control state.
`expiry` and `event` are the fields of the Python `SideState`; `relay` is
`state.relay.state`; `deadline` records the `exp` captured at line 66 when the
worker entered `wait_for` (meaningful only in phase `waitInner`). -/
structure Side where
  expiry : Time
  event : Bool
  relay : Bool
  phase : WPhase
  deadline : Time
deriving DecidableEq, Repr

/-- Process-start state: `expiry = 0.0`, event clear, relay off
(`Relay.state = False`), worker parked at the outer wait. -/
def Side.init : Side :=
  { expiry := 0, event := false, relay := false, phase := .waitOuter, deadline := 0 }

/-- `extend(state, seconds)` body (ws_client.py lines 85-91), run under
`state.lock` with `now = time.monotonic()`:
`base = state.expiry if state.expiry > now else now`;
`state.expiry = base + max(0, int(seconds))`; `state.event.set()`. -/
def extendSide (now : Time) (seconds : ℤ) (s : Side) : Side :=
  { s with
      expiry := (if s.expiry > now then s.expiry else now) + ((max 0 seconds : ℤ) : ℚ)
      event := true }

/-- The value `extend` returns: the updated `state.expiry` (line 91). -/
def extendRet (now : Time) (seconds : ℤ) (s : Side) : Time :=
  (extendSide now seconds s).expiry

/-- Atomic transitions of one side at a given instant.  Worker steps follow
the code between suspension points; `extend` may interleave only while the
worker is suspended (asyncio is cooperative and the inner-loop body has no
await before its next suspension). -/
inductive Step : Time → Side → Side → Prop where
  | extend (now : Time) (d : ℤ) (s : Side) :
      s.phase ≠ .checkLoop →
      Step now s (extendSide now d s)
  | wakeOuter (now : Time) (s : Side) :
      s.phase = .waitOuter → s.event = true →
      Step now s { s with event := false, phase := .checkLoop }
  | checkOff (now : Time) (s : Side) :
      s.phase = .checkLoop → s.expiry ≤ now →
      Step now s { s with relay := false, phase := .waitOuter }
  | checkOn (now : Time) (s : Side) :
      s.phase = .checkLoop → now < s.expiry →
      Step now s { s with relay := true, phase := .waitInner, deadline := s.expiry }
  | wakeInner (now : Time) (s : Side) :
      s.phase = .waitInner → s.event = true →
      Step now s { s with event := false, phase := .checkLoop }
  | timeout (now : Time) (s : Side) :
      s.phase = .waitInner → s.event = false → s.deadline ≤ now →
      Step now s { s with expiry := 0, phase := .checkLoop }

/-- `Reach t s`: at instant `t` the side can be in state `s`.  Time is
monotone along a run and the monotonic clock is nonnegative. -/
inductive Reach : Time → Side → Prop where
  | init (t : Time) : 0 ≤ t → Reach t Side.init
  | step (t t' : Time) (s s' : Side) :
      Reach t s → t ≤ t' → Step t' s s' → Reach t' s'
  | wait (t t' : Time) (s : Side) :
      Reach t s → t ≤ t' → Reach t' s

/-- A side is quiescent at `t` when no worker step is pending: the event is
clear and the worker is either parked at the outer wait or sleeping in the
inner wait with its timeout not yet elapsed. -/
def stableAt (t : Time) (s : Side) : Prop :=
  s.event = false ∧
    (s.phase = .waitOuter ∨ (s.phase = .waitInner ∧ t < s.deadline))

/-- The inductive invariant: when the event is clear, a worker parked at the
outer wait has its relay off and its deadline already elapsed, and a worker
sleeping in the inner wait has its relay on and its recorded deadline equal
to the current `expiry`. -/
def Inv (t : Time) (s : Side) : Prop :=
  (s.phase = .waitOuter → s.event = false → s.relay = false ∧ s.expiry ≤ t) ∧
  (s.phase = .waitInner → s.event = false → s.relay = true ∧ s.deadline = s.expiry)

/-- Whitespace splitting on a character list: `acc` holds the characters of
the current word, in reverse.  Words are the maximal whitespace-free runs. -/
def pySplitChars : List Char → List Char → List (List Char)
  | [], acc => if acc.isEmpty then [] else [acc.reverse]
  | c :: cs, acc =>
      if c.isWhitespace then
        if acc.isEmpty then pySplitChars cs []
        else acc.reverse :: pySplitChars cs []
      else pySplitChars cs (c :: acc)

/-- Python's `str.split()` with no separator: split on whitespace runs,
discarding empty pieces. -/
def pySplit (a : String) : List String :=
  (pySplitChars a.toList []).map List.asString

/-- Python's `str.lower()` restricted to its ASCII action (tokens and side
names in this protocol are ASCII). -/
def pyLower (a : String) : String :=
  (a.toList.map Char.toLower).asString

/-- The client's message handler for one received frame (ws_client.py lines
121-140): ignore frames whose `command` is not `"whip"`, ignore frames whose
`duration` does not parse as an integer, lowercase the `side` field (default
`"both"`), then extend the left state when the side is `"left"` or `"both"`
and the right state when it is `"right"` or `"both"`.  `command` is
`data.get("command")`, `duration` the result of `int(data.get("duration"))`
(`none` when parsing raised), `sideField` the raw `side` value if present. -/
def handleWhip (now : Time) (command : Option String) (duration : Option ℤ)
    (sideField : Option String) (l r : Side) : Side × Side :=
  if command ≠ some "whip" then (l, r)
  else
    match duration with
    | none => (l, r)
    | some d =>
        let side := pyLower (sideField.getD "both")
        let l' := if side = "left" ∨ side = "both" then extendSide now d l else l
        let r' := if side = "right" ∨ side = "both" then extendSide now d r else r
        (l', r')

/-- Full client-process state for the shutdown model: the two sides, whether
each worker task is still alive, and whether `Relay.cleanup()` has run. -/
structure ClientSys where
  left : Side
  right : Side
  leftWorker : Bool
  rightWorker : Bool
  cleanedUp : Bool
deriving DecidableEq, Repr

/-- The individual operations of `run`'s `finally` block (ws_client.py lines
142-151), in the order the code performs them. -/
inductive ShutAct where
  | offLeft
  | offRight
  | cancelLeft
  | cancelRight
  | awaitWorkers
  | cleanupRelays
deriving DecidableEq, Repr

/-- Effect of one shutdown action.  `w.cancel()` only kills the worker task:
the cancellation is delivered at the worker's suspension point, so it never
runs relay code.  `awaitWorkers` (`asyncio.gather(..., return_exceptions=True)`)
only collects the cancelled tasks. -/
def applyShutAct (s : ClientSys) : ShutAct → ClientSys
  | .offLeft => { s with left := { s.left with relay := false } }
  | .offRight => { s with right := { s.right with relay := false } }
  | .cancelLeft => { s with leftWorker := false }
  | .cancelRight => { s with rightWorker := false }
  | .awaitWorkers => s
  | .cleanupRelays => { s with cleanedUp := true }

/-- The order of operations in the `finally` block: turn both relays off,
cancel both workers, gather them, then `Relay.cleanup()`. -/
def shutdownSeq : List ShutAct :=
  [.offLeft, .offRight, .cancelLeft, .cancelRight, .awaitWorkers, .cleanupRelays]

/-- Run the whole shutdown sequence. -/
def shutdown (s : ClientSys) : ClientSys :=
  shutdownSeq.foldl applyShutAct s

/-- Bearer tokens are opaque strings; connections are identified by an id
(Python object identity, compared with `is`). -/
abbrev Token := String

/-- A WebSocket connection handle, abstracted to its identity. -/
abbrev Conn := ℕ

/-- The `active_connections` dict: token-keyed map of live connections.  All
accesses in main.py happen under `connections_lock`, so the map is modelled
as plain state transformed sequentially. -/
abbrev Registry := Token → Option Conn

/-- The empty registry. -/
def Registry.empty : Registry := fun _ => none

/-- `active_connections[token] = websocket` (main.py line 107): unconditional
upsert. -/
def registryAdd (m : Registry) (t : Token) (c : Conn) : Registry :=
  fun t' => if t' = t then some c else m t'

/-- The guarded removal used both in the websocket handler's `finally`
(main.py lines 117-118) and in the failed-send cleanup (lines 77-78):
`if active_connections.get(token) is websocket: active_connections.pop(token)`.
Removes the mapping only when the stored connection is the same object. -/
def registryRemove (m : Registry) (t : Token) (c : Conn) : Registry :=
  if m t = some c then (fun t' => if t' = t then none else m t') else m

/-- `active_connections.get(token)` (main.py line 60). -/
def registryLookup (m : Registry) (t : Token) : Option Conn := m t

/-- `get_bearer_token` (main.py lines 43-49): reject a missing or empty
header; split it on whitespace; require exactly two parts with the first
equal to `"bearer"` case-insensitively; return the second part.  `none`
models raising the 401 `HTTPException`. -/
def getBearerToken (authorization : Option String) : Option Token :=
  match authorization with
  | none => none
  | some a =>
      if a = "" then none
      else
        match pySplit a with
        | [scheme, tok] => if pyLower scheme = "bearer" then some tok else none
        | _ => none

/-- The `SideEnum` of main.py: the three accepted `side` values. -/
inductive SideEnum where
  | left
  | right
  | both
deriving DecidableEq, Repr

/-- `.value` of the enum member: its wire string. -/
def SideEnum.value : SideEnum → String
  | .left => "left"
  | .right => "right"
  | .both => "both"

/-- The `duration` field constraint of `WhipRequest`: `ge=1, le=60`. -/
def validDuration (d : ℤ) : Bool := 1 ≤ d && d ≤ 60

/-- Pydantic validation of the `side` field of `WhipRequest`: absent means
`SideEnum.both`; otherwise the string must be exactly one of the three enum
values. `none` models a 422 validation failure. -/
def parseSide : Option String → Option SideEnum
  | none => some .both
  | some "left" => some SideEnum.left
  | some "right" => some SideEnum.right
  | some "both" => some SideEnum.both
  | some _ => none

/-- The wire message built by the `whip` endpoint (main.py lines 65-70). -/
structure WireMsg where
  command : String
  duration : ℤ
  side : String
  ts : String
deriving DecidableEq, Repr

/-- The error classes the `/whip` endpoint can surface: 401 (auth), 422
(request validation), 404 (no client / failed send). -/
inductive DispatchError where
  | auth
  | validation
  | notFound
deriving DecidableEq, Repr

/-- The HTTP-visible result of one `/whip` request: `sent msg` is the 202
acknowledgement with body status "sent" and payload `msg`, echoing the wire
message; `failure e` is the raised `HTTPException`. -/
inductive DispatchResult where
  | failure (e : DispatchError)
  | sent (msg : WireMsg)
deriving DecidableEq, Repr

/-- Observable outcome of one `/whip` request: the HTTP result, the registry
after the request, and the message handed to the transport, if any. -/
structure DispatchOutcome where
  result : DispatchResult
  registry : Registry
  sent : Option WireMsg

/-- The `/whip` request path (main.py lines 43-49, 31-36 and 57-82).  FastAPI
resolves the `get_bearer_token` dependency first (a 401 pre-empts body
validation), then validates the body against `WhipRequest`, then the handler
looks up the token, builds the wire message with the current UTC timestamp
`ts`, and sends it.  `sendOk c` tells whether `await ws.send_text(...)`
succeeds on connection `c`; on failure the handler removes the mapping if it
still holds this connection and raises 404. -/
def whipDispatch (authorization : Option String) (duration : ℤ)
    (sideField : Option String) (ts : String) (m : Registry)
    (sendOk : Conn → Bool) : DispatchOutcome :=
  match getBearerToken authorization with
  | none => ⟨.failure .auth, m, none⟩
  | some token =>
      if ¬ validDuration duration then ⟨.failure .validation, m, none⟩
      else
        match parseSide sideField with
        | none => ⟨.failure .validation, m, none⟩
        | some side =>
            match registryLookup m token with
            | none => ⟨.failure .notFound, m, none⟩
            | some ws =>
                let msg : WireMsg := ⟨"whip", duration, side.value, ts⟩
                if sendOk ws then ⟨.sent msg, m, some msg⟩
                else ⟨.failure .notFound, registryRemove m token ws, none⟩

end Whip

namespace Whip

theorem inv_of_reach {t : Time} {s : Side} (h : Reach t s) : Inv t s := by
  induction h with
  | init t ht =>
      refine ⟨fun _ _ => ⟨rfl, ht⟩, fun hp _ => ?_⟩
      simp [Side.init] at hp
  | step t t' s s' hr hle hstep ih =>
      cases hstep with
      | extend d sx hp =>
          exact ⟨fun _ he => by simp [extendSide] at he,
                 fun _ he => by simp [extendSide] at he⟩
      | wakeOuter sx hp he =>
          exact ⟨fun hp' _ => by simp_all, fun hp' _ => by simp_all⟩
      | checkOff sx hp hexp =>
          exact ⟨fun _ _ => ⟨rfl, hexp⟩, fun hp' _ => by simp_all⟩
      | checkOn sx hp hexp =>
          exact ⟨fun hp' _ => by simp_all, fun _ _ => ⟨rfl, rfl⟩⟩
      | wakeInner sx hp he =>
          exact ⟨fun hp' _ => by simp_all, fun hp' _ => by simp_all⟩
      | timeout sx hp he hd =>
          exact ⟨fun hp' _ => by simp_all, fun hp' _ => by simp_all⟩
  | wait t t' s hr hle ih =>
      exact ⟨fun hp he => ⟨(ih.1 hp he).1, le_trans (ih.1 hp he).2 hle⟩, ih.2⟩

theorem extendSide_expiry (now : Time) (d : ℤ) (s : Side) :
    (extendSide now d s).expiry = max s.expiry now + ((max 0 d : ℤ) : ℚ) := by
  unfold extendSide
  rcases le_or_lt s.expiry now with h | h
  · simp [max_eq_right h, not_lt.mpr h]
  · simp [max_eq_left h.le, h]

theorem le_extendSide_expiry (now : Time) (d : ℤ) (s : Side) :
    s.expiry ≤ (extendSide now d s).expiry := by
  rw [extendSide_expiry]
  have h0 : (0 : ℚ) ≤ ((max 0 d : ℤ) : ℚ) := by exact_mod_cast le_max_left 0 d
  have h1 : s.expiry ≤ max s.expiry now := le_max_left _ _
  linarith

theorem handleWhip_eval (now : Time) (d : ℤ) (sideName : String) (l r : Side) :
    handleWhip now (some "whip") (some d) (some sideName) l r =
      (if pyLower sideName = "left" ∨ pyLower sideName = "both"
          then extendSide now d l else l,
       if pyLower sideName = "right" ∨ pyLower sideName = "both"
          then extendSide now d r else r) := by
  simp [handleWhip]

theorem handleWhip_left (now : Time) (d : ℤ) (l r : Side) :
    handleWhip now (some "whip") (some d) (some "left") l r = (extendSide now d l, r) := by
  have h : pyLower "left" = "left" := by decide
  rw [handleWhip_eval, h, if_pos (Or.inl rfl), if_neg (by decide)]

theorem handleWhip_right (now : Time) (d : ℤ) (l r : Side) :
    handleWhip now (some "whip") (some d) (some "right") l r = (l, extendSide now d r) := by
  have h : pyLower "right" = "right" := by decide
  rw [handleWhip_eval, h, if_neg (by decide), if_pos (Or.inl rfl)]

theorem handleWhip_both (now : Time) (d : ℤ) (l r : Side) :
    handleWhip now (some "whip") (some d) (some "both") l r =
      (extendSide now d l, extendSide now d r) := by
  have h : pyLower "both" = "both" := by decide
  rw [handleWhip_eval, h, if_pos (Or.inr rfl), if_pos (Or.inr rfl)]

theorem reach_timeout_state :
    Reach 5 (⟨5, false, true, .waitInner, 5⟩ : Side) := by
  have h0 : Reach 0 Side.init := Reach.init 0 le_rfl
  have hstep1 : Step 0 Side.init (extendSide 0 5 Side.init) :=
    Step.extend 0 5 Side.init (by simp [Side.init])
  have he1 : extendSide 0 5 Side.init = (⟨5, true, false, .waitOuter, 0⟩ : Side) := by
    simp [extendSide, Side.init]
  have h1 : Reach 0 (⟨5, true, false, .waitOuter, 0⟩ : Side) :=
    he1 ▸ Reach.step 0 0 _ _ h0 le_rfl hstep1
  have h2 : Reach 0 (⟨5, false, false, .checkLoop, 0⟩ : Side) :=
    Reach.step 0 0 _ _ h1 le_rfl (Step.wakeOuter 0 _ rfl rfl)
  have h3 : Reach 0 (⟨5, false, true, .waitInner, 5⟩ : Side) :=
    Reach.step 0 0 _ _ h2 le_rfl (Step.checkOn 0 _ rfl (by norm_num))
  exact Reach.wait 0 5 _ h3 (by norm_num)

/-- C1: `extend(state, d)` sets `expiry` to `max(old expiry, now) + max(0, d)`,
sets the wake event, and returns the new `expiry`; hence sequential extends
are additive: from `expiry ≤ t0`, `extend(10)` at `t0` then `extend(5)` at
`t0 + 3` yields `expiry = t0 + 15`, and `extend(5)` at `t0 + 100` after a
prior `expiry` of `t0 + 10` has elapsed yields `t0 + 105`. -/
theorem extend_semantics :
    (∀ (now : Time) (d : ℤ) (s : Side),
        (extendSide now d s).expiry = max s.expiry now + ((max 0 d : ℤ) : ℚ) ∧
        (extendSide now d s).event = true ∧
        extendRet now d s = (extendSide now d s).expiry) ∧
    (∀ (t0 : Time) (s : Side), s.expiry ≤ t0 →
        (extendSide (t0 + 3) 5 (extendSide t0 10 s)).expiry = t0 + 15) ∧
    (∀ (t0 : Time) (s : Side), s.expiry = t0 + 10 →
        (extendSide (t0 + 100) 5 s).expiry = t0 + 105) := by
  refine ⟨fun now d s => ⟨extendSide_expiry now d s, rfl, rfl⟩, ?_, ?_⟩
  · intro t0 s h
    rw [extendSide_expiry, extendSide_expiry, max_eq_right h]
    have hc10 : ((max 0 (10 : ℤ) : ℤ) : ℚ) = 10 := by norm_num
    have hc5 : ((max 0 (5 : ℤ) : ℤ) : ℚ) = 5 := by norm_num
    rw [hc10, hc5]
    have h1 : max (t0 + 10) (t0 + 3) = t0 + 10 := by
      apply max_eq_left; linarith
    rw [h1]
    ring
  · intro t0 s h
    rw [extendSide_expiry, h]
    have hc5 : ((max 0 (5 : ℤ) : ℤ) : ℚ) = 5 := by norm_num
    rw [hc5]
    have h1 : max (t0 + 10) (t0 + 100) = t0 + 100 := by
      apply max_eq_right; linarith
    rw [h1]
    ring

/-- C1 witness: the two additivity scenarios at `t0 = 0`, from the initial
state and from a state whose `expiry` is already `10`. -/
theorem extend_semantics_witness :
    (extendSide (0 + 3) 5 (extendSide 0 10 Side.init)).expiry = 0 + 15 ∧
    (extendSide (0 + 100) 5
        (⟨0 + 10, false, false, .waitOuter, 0⟩ : Side)).expiry = 0 + 105 :=
  ⟨extend_semantics.2.1 0 Side.init le_rfl,
   extend_semantics.2.2 0 _ rfl⟩

/-- C2: at every quiescent instant (wake event clear and no elapsed timeout
pending) the relay is ON iff the instant is before `expiry`; moreover any
worker step that switches the relay OFF happens only when `expiry ≤ now`
(so a late extend during the active window never causes an OFF/ON flicker),
and any step that switches it ON happens only when `now < expiry`. -/
theorem worker_relay_iff :
    (∀ (t : Time) (s : Side), Reach t s → stableAt t s →
        (s.relay = true ↔ t < s.expiry)) ∧
    (∀ (t : Time) (s s' : Side), Step t s s' →
        s.relay = true → s'.relay = false → s.expiry ≤ t) ∧
    (∀ (t : Time) (s s' : Side), Step t s s' →
        s.relay = false → s'.relay = true → t < s.expiry) := by
  refine ⟨?_, ?_, ?_⟩
  · intro t s hr hst
    have hinv := inv_of_reach hr
    rcases hst with ⟨he, hph | ⟨hph, hd⟩⟩
    · rcases hinv.1 hph he with ⟨hrel, hexp⟩
      rw [hrel]
      exact iff_of_false (by simp) (not_lt.mpr hexp)
    · rcases hinv.2 hph he with ⟨hrel, hdq⟩
      rw [hrel]
      exact iff_of_true rfl (hdq ▸ hd)
  · intro t s s' hstep h1 h2
    cases hstep with
    | extend d sx hp => exact Bool.noConfusion (h1.symm.trans h2)
    | wakeOuter sx hp he => exact Bool.noConfusion (h1.symm.trans h2)
    | checkOff sx hp hexp => exact hexp
    | checkOn sx hp hexp => exact Bool.noConfusion h2
    | wakeInner sx hp he => exact Bool.noConfusion (h1.symm.trans h2)
    | timeout sx hp he hd => exact Bool.noConfusion (h1.symm.trans h2)
  · intro t s s' hstep h1 h2
    cases hstep with
    | extend d sx hp => exact Bool.noConfusion (h1.symm.trans h2)
    | wakeOuter sx hp he => exact Bool.noConfusion (h1.symm.trans h2)
    | checkOff sx hp hexp => exact Bool.noConfusion h2
    | checkOn sx hp hexp => exact hexp
    | wakeInner sx hp he => exact Bool.noConfusion (h1.symm.trans h2)
    | timeout sx hp he hd => exact Bool.noConfusion (h1.symm.trans h2)

/-- C2 witness: the quiescent-state iff at the initial state at instant 0,
and the OFF/ON step conditions at concrete `checkOff` and `checkOn` steps. -/
theorem worker_relay_iff_witness :
    (Side.init.relay = true ↔ (0 : ℚ) < Side.init.expiry) ∧
    ((⟨0, false, true, .checkLoop, 0⟩ : Side).expiry ≤ (0 : ℚ)) ∧
    ((0 : ℚ) < (⟨1, false, false, .checkLoop, 0⟩ : Side).expiry) :=
  ⟨worker_relay_iff.1 0 Side.init (Reach.init 0 le_rfl) ⟨rfl, Or.inl rfl⟩,
   worker_relay_iff.2.1 0 _ _ (Step.checkOff 0 _ rfl le_rfl) rfl rfl,
   worker_relay_iff.2.2 0 _ _ (Step.checkOn 0 _ rfl (by norm_num)) rfl rfl⟩

/-- C3 counterexample: the side worker itself decreases `expiry`.  After
`extend(5)` at instant 0 the worker enters its inner wait with
`expiry = deadline = 5`; when the wait times out at instant 5 the worker
executes `state.expiry = 0.0` (ws_client.py line 81), a step of the system
that moves `expiry` from 5 down to 0. -/
theorem worker_decreases_expiry :
    Reach 5 (⟨5, false, true, .waitInner, 5⟩ : Side) ∧
    Step 5 (⟨5, false, true, .waitInner, 5⟩ : Side)
        (⟨0, false, true, .checkLoop, 5⟩ : Side) ∧
    (⟨0, false, true, .checkLoop, 5⟩ : Side).expiry
      < (⟨5, false, true, .waitInner, 5⟩ : Side).expiry :=
  ⟨reach_timeout_state, Step.timeout 5 _ rfl rfl le_rfl, by norm_num⟩

/-- C3 amended: `extend` never decreases `expiry`; the only step that
decreases it is the worker's reset of `expiry` to 0 after its inner wait
times out, which in every reachable state happens only once the deadline has
elapsed (`expiry ≤ now`), so the stored deadline is never pulled back while
still in the future. -/
theorem expiry_decrease_only_after_deadline :
    (∀ (now : Time) (d : ℤ) (s : Side), s.expiry ≤ (extendSide now d s).expiry) ∧
    (∀ (t t' : Time) (s s' : Side), Reach t s → t ≤ t' → Step t' s s' →
        s'.expiry < s.expiry → s'.expiry = 0 ∧ s.expiry ≤ t') := by
  refine ⟨le_extendSide_expiry, ?_⟩
  intro t t' s s' hr hle hstep hlt
  have hinv := inv_of_reach hr
  cases hstep with
  | extend d sx hp =>
      exact absurd hlt (not_lt.mpr (le_extendSide_expiry t' d s))
  | wakeOuter sx hp he => exact absurd hlt (lt_irrefl s.expiry)
  | checkOff sx hp hexp => exact absurd hlt (lt_irrefl s.expiry)
  | checkOn sx hp hexp => exact absurd hlt (lt_irrefl s.expiry)
  | wakeInner sx hp he => exact absurd hlt (lt_irrefl s.expiry)
  | timeout sx hp he hd =>
      refine ⟨rfl, ?_⟩
      rcases hinv.2 hp he with ⟨_, hdq⟩
      exact hdq ▸ hd

/-- C3 amended witness: the concrete timed-out step from the counterexample
trace satisfies the amended statement's hypotheses and conclusion. -/
theorem expiry_decrease_only_after_deadline_witness :
    (⟨0, false, true, .checkLoop, 5⟩ : Side).expiry = 0 ∧
    (⟨5, false, true, .waitInner, 5⟩ : Side).expiry ≤ (5 : ℚ) :=
  expiry_decrease_only_after_deadline.2 5 5 _ _ reach_timeout_state le_rfl
    (Step.timeout 5 _ rfl rfl le_rfl) (by norm_num)

/-- C4: registering a token makes lookup return that connection; after
unregistering the connection that is stored, lookup is absent; and
unregistering a connection that is no longer the stored one is a no-op, so a
stale cleanup never evicts a newer registration. -/
theorem registry_semantics :
    (∀ (m : Registry) (t : Token) (c : Conn),
        registryLookup (registryAdd m t c) t = some c) ∧
    (∀ (m : Registry) (t : Token) (c : Conn),
        registryLookup m t = some c →
        registryLookup (registryRemove m t c) t = none) ∧
    (∀ (m : Registry) (t : Token) (c cNew : Conn),
        registryLookup m t = some cNew → cNew ≠ c →
        registryRemove m t c = m) := by
  refine ⟨?_, ?_, ?_⟩
  · intro m t c
    simp [registryLookup, registryAdd]
  · intro m t c h
    simp only [registryLookup] at h
    simp [registryLookup, registryRemove, h]
  · intro m t c cNew h hne
    simp only [registryLookup] at h
    unfold registryRemove
    rw [if_neg]
    rw [h]
    simp [hne]

/-- C4 witness: on the concrete registry holding token `"t"` at connection 2,
removing connection 2 clears the entry while removing stale connection 1
leaves the registry unchanged. -/
theorem registry_semantics_witness :
    registryLookup (registryRemove (registryAdd Registry.empty "t" 2) "t" 2) "t" = none ∧
    registryRemove (registryAdd Registry.empty "t" 2) "t" 1 = registryAdd Registry.empty "t" 2 :=
  ⟨registry_semantics.2.1 _ "t" 2 (by decide),
   registry_semantics.2.2 _ "t" 1 2 (by decide) (by decide)⟩

/-- C5 counterexample: a request with a well-formed bearer header, a valid
body, and a registered token still receives NotFoundError when the transport
send fails, so NotFoundError is not reserved for unregistered tokens. -/
theorem notfound_despite_registration :
    (whipDispatch (some "Bearer tok") 5 (some "left") "T"
        (registryAdd Registry.empty "tok" 7) (fun _ => false)).result
      = .failure .notFound ∧
    registryLookup (registryAdd Registry.empty "tok" 7) "tok" = some 7 := by
  refine ⟨?_, by decide⟩
  decide

/-- C5 amended: dispatch fails with AuthError exactly when bearer-token
extraction fails (absent header or not exactly a case-insensitive Bearer
scheme plus token); with ValidationError exactly when the token extracts but
the duration lies outside 1..60 or the side is not left/right/both; and with
NotFoundError exactly when the request is well-formed and either the token
has no registered connection or the send over the registered connection
fails. -/
theorem dispatch_error_cases :
    ∀ (auth : Option String) (d : ℤ) (sideF : Option String) (ts : String)
      (m : Registry) (sendOk : Conn → Bool),
      ((whipDispatch auth d sideF ts m sendOk).result = .failure .auth ↔
        getBearerToken auth = none) ∧
      ((whipDispatch auth d sideF ts m sendOk).result = .failure .validation ↔
        (getBearerToken auth ≠ none ∧
          (validDuration d = false ∨ parseSide sideF = none))) ∧
      ((whipDispatch auth d sideF ts m sendOk).result = .failure .notFound ↔
        (∃ tok, getBearerToken auth = some tok ∧ validDuration d = true ∧
          parseSide sideF ≠ none ∧
          (registryLookup m tok = none ∨
            ∃ c, registryLookup m tok = some c ∧ sendOk c = false))) := by
  intro auth d sideF ts m sendOk
  cases hauth : getBearerToken auth with
  | none => simp [whipDispatch, hauth]
  | some tok =>
      cases hdur : validDuration d with
      | false => simp [whipDispatch, hauth, hdur]
      | true =>
          cases hside : parseSide sideF with
          | none => simp [whipDispatch, hauth, hdur, hside]
          | some side =>
              cases hlook : registryLookup m tok with
              | none => simp [whipDispatch, hauth, hdur, hside, hlook]
              | some c =>
                  cases hsend : sendOk c with
                  | false => simp [whipDispatch, hauth, hdur, hside, hlook, hsend]
                  | true => simp [whipDispatch, hauth, hdur, hside, hlook, hsend]

/-- C6: when the send over the looked-up connection fails, dispatch removes
the token's mapping through the guarded removal (only if the stored
connection is still that connection), surfaces NotFoundError, and hands no
message to the transport; the token afterwards has no registered
connection. -/
theorem send_failure_cleanup :
    ∀ (auth : Option String) (tok : Token) (d : ℤ) (sideF : Option String)
      (ts : String) (m : Registry) (c : Conn) (sendOk : Conn → Bool),
      getBearerToken auth = some tok →
      validDuration d = true →
      parseSide sideF ≠ none →
      registryLookup m tok = some c →
      sendOk c = false →
      (whipDispatch auth d sideF ts m sendOk).result = .failure .notFound ∧
      (whipDispatch auth d sideF ts m sendOk).registry = registryRemove m tok c ∧
      registryLookup ((whipDispatch auth d sideF ts m sendOk).registry) tok = none ∧
      (whipDispatch auth d sideF ts m sendOk).sent = none := by
  intro auth tok d sideF ts m c sendOk hauth hdur hside hlook hsend
  obtain ⟨side, hs⟩ := Option.ne_none_iff_exists'.mp hside
  refine ⟨?_, ?_, ?_, ?_⟩ <;>
    simp [whipDispatch, hauth, hdur, hs, hlook, hsend, registry_semantics.2.1 m tok c hlook]

/-- C6 witness: the concrete failed send on registered token `"tok"`. -/
theorem send_failure_cleanup_witness :
    (whipDispatch (some "Bearer tok") 5 (some "both") "T"
        (registryAdd Registry.empty "tok" 7) (fun _ => false)).result
      = .failure .notFound ∧
    (whipDispatch (some "Bearer tok") 5 (some "both") "T"
        (registryAdd Registry.empty "tok" 7) (fun _ => false)).registry
      = registryRemove (registryAdd Registry.empty "tok" 7) "tok" 7 ∧
    registryLookup ((whipDispatch (some "Bearer tok") 5 (some "both") "T"
        (registryAdd Registry.empty "tok" 7) (fun _ => false)).registry) "tok" = none ∧
    (whipDispatch (some "Bearer tok") 5 (some "both") "T"
        (registryAdd Registry.empty "tok" 7) (fun _ => false)).sent = none :=
  send_failure_cleanup (some "Bearer tok") "tok" 5 (some "both") "T"
    (registryAdd Registry.empty "tok" 7) 7 (fun _ => false)
    (by decide) (by decide) (by decide) (by decide) rfl

/-- C8: for an authenticated, validated request with a registered connection
on which the send succeeds, dispatch builds the wire message
(command "whip", the duration, the side's wire string, the timestamp), hands
exactly that message to the transport, returns the 202 acknowledgement
echoing that same message, and leaves the registry unchanged. -/
theorem dispatch_success_echo :
    ∀ (auth : Option String) (tok : Token) (d : ℤ) (sideF : Option String)
      (side : SideEnum) (ts : String) (m : Registry) (c : Conn)
      (sendOk : Conn → Bool),
      getBearerToken auth = some tok →
      validDuration d = true →
      parseSide sideF = some side →
      registryLookup m tok = some c →
      sendOk c = true →
      (whipDispatch auth d sideF ts m sendOk).result
        = .sent { command := "whip", duration := d, side := side.value, ts := ts } ∧
      (whipDispatch auth d sideF ts m sendOk).sent
        = some { command := "whip", duration := d, side := side.value, ts := ts } ∧
      (whipDispatch auth d sideF ts m sendOk).registry = m := by
  intro auth tok d sideF side ts m c sendOk hauth hdur hside hlook hsend
  refine ⟨?_, ?_, ?_⟩ <;> simp [whipDispatch, hauth, hdur, hside, hlook, hsend]

/-- C8 witness: the concrete successful dispatch of duration 5 to side left
for token `"tok"` registered at connection 7. -/
theorem dispatch_success_echo_witness :
    (whipDispatch (some "Bearer tok") 5 (some "left") "T"
        (registryAdd Registry.empty "tok" 7) (fun _ => true)).result
      = .sent { command := "whip", duration := 5, side := SideEnum.left.value, ts := "T" } ∧
    (whipDispatch (some "Bearer tok") 5 (some "left") "T"
        (registryAdd Registry.empty "tok" 7) (fun _ => true)).sent
      = some { command := "whip", duration := 5, side := SideEnum.left.value, ts := "T" } ∧
    (whipDispatch (some "Bearer tok") 5 (some "left") "T"
        (registryAdd Registry.empty "tok" 7) (fun _ => true)).registry
      = registryAdd Registry.empty "tok" 7 :=
  dispatch_success_echo (some "Bearer tok") "tok" 5 (some "left") SideEnum.left "T"
    (registryAdd Registry.empty "tok" 7) 7 (fun _ => true)
    (by decide) (by decide) (by decide) (by decide) rfl

/-- C7: a whip command for side left extends only the left state and leaves
the right state untouched, symmetrically for right, and side both expands to
one extend against each state. -/
theorem side_dispatch_frame :
    ∀ (now : Time) (d : ℤ) (l r : Side),
      handleWhip now (some "whip") (some d) (some "left") l r
        = (extendSide now d l, r) ∧
      handleWhip now (some "whip") (some d) (some "right") l r
        = (l, extendSide now d r) ∧
      handleWhip now (some "whip") (some d) (some "both") l r
        = (extendSide now d l, extendSide now d r) :=
  fun now d l r =>
    ⟨handleWhip_left now d l r, handleWhip_right now d l r, handleWhip_both now d l r⟩

/-- C9: after the shutdown sequence both relays are off, both workers are
cancelled and cleanup has run; cleanup is the last action and every
relay-off and worker-cancel action strictly precedes it, each relay-off
preceding its side's cancel; and cancelling a worker never changes a relay,
so cancellation cannot leave a driver ON. -/
theorem shutdown_failsafe :
    (∀ s : ClientSys,
        (shutdown s).left.relay = false ∧ (shutdown s).right.relay = false ∧
        (shutdown s).leftWorker = false ∧ (shutdown s).rightWorker = false ∧
        (shutdown s).cleanedUp = true) ∧
    (shutdownSeq.getLast? = some .cleanupRelays ∧
     shutdownSeq.indexOf .offLeft < shutdownSeq.indexOf .cancelLeft ∧
     shutdownSeq.indexOf .offRight < shutdownSeq.indexOf .cancelRight ∧
     shutdownSeq.indexOf .offLeft < shutdownSeq.indexOf .cleanupRelays ∧
     shutdownSeq.indexOf .offRight < shutdownSeq.indexOf .cleanupRelays ∧
     shutdownSeq.indexOf .cancelLeft < shutdownSeq.indexOf .cleanupRelays ∧
     shutdownSeq.indexOf .cancelRight < shutdownSeq.indexOf .cleanupRelays ∧
     ShutAct.cleanupRelays ∈ shutdownSeq) ∧
    (∀ s : ClientSys,
        (applyShutAct s .cancelLeft).left.relay = s.left.relay ∧
        (applyShutAct s .cancelLeft).right.relay = s.right.relay ∧
        (applyShutAct s .cancelRight).left.relay = s.left.relay ∧
        (applyShutAct s .cancelRight).right.relay = s.right.relay) := by
  refine ⟨?_, by decide, ?_⟩
  · intro s
    refine ⟨?_, ?_, ?_, ?_, ?_⟩ <;> simp [shutdown, shutdownSeq, applyShutAct]
  · intro s
    exact ⟨rfl, rfl, rfl, rfl⟩

/-- C10: the client enforces no duration range: an integer duration `d` is
passed to extend unchanged, so `d > 60` extends the deadline by the full `d`,
`d ≤ 0` leaves the deadline at `max(expiry, now)`, and a duration that fails
integer parsing leaves both sides untouched. -/
theorem client_no_duration_clamp :
    ∀ (now : Time) (d : ℤ) (sideF : Option String) (l r : Side),
      ((handleWhip now (some "whip") (some d) (some "both") l r).1.expiry
          = max l.expiry now + ((max 0 d : ℤ) : ℚ)) ∧
      (60 < d → (handleWhip now (some "whip") (some d) (some "both") l r).1.expiry
          = max l.expiry now + (d : ℚ)) ∧
      (d ≤ 0 → (handleWhip now (some "whip") (some d) (some "both") l r).2.expiry
          = max r.expiry now) ∧
      handleWhip now (some "whip") none sideF l r = (l, r) := by
  intro now d sideF l r
  refine ⟨?_, ?_, ?_, ?_⟩
  · rw [handleWhip_both]
    exact extendSide_expiry now d l
  · intro hd
    rw [handleWhip_both]
    show (extendSide now d l).expiry = _
    rw [extendSide_expiry]
    have h1 : (max 0 d : ℤ) = d := max_eq_right (by linarith)
    rw [h1]
  · intro hd
    rw [handleWhip_both]
    show (extendSide now d r).expiry = _
    rw [extendSide_expiry]
    have h1 : (max 0 d : ℤ) = 0 := max_eq_left (by linarith)
    rw [h1]
    norm_num
  · simp [handleWhip]

/-- C10 witness: duration 61 extends by the full 61 seconds, duration -1
leaves the deadline at `max(expiry, now)`, and an unparseable duration is a
no-op, all at instant 0 from the initial states. -/
theorem client_no_duration_clamp_witness :
    (handleWhip 0 (some "whip") (some 61) (some "both")
        Side.init Side.init).1.expiry
      = max Side.init.expiry 0 + ((61 : ℤ) : ℚ) ∧
    (handleWhip 0 (some "whip") (some (-1)) (some "both")
        Side.init Side.init).2.expiry = max Side.init.expiry 0 ∧
    handleWhip 0 (some "whip") none (some "both") Side.init Side.init
      = (Side.init, Side.init) :=
  ⟨(client_no_duration_clamp 0 61 (some "both") Side.init Side.init).2.1 (by norm_num),
   (client_no_duration_clamp 0 (-1) (some "both") Side.init Side.init).2.2.1 (by norm_num),
   (client_no_duration_clamp 0 0 (some "both") Side.init Side.init).2.2.2⟩

end Whip
